import Mathlib

/-!
A verification development for `metro_tiles.py`, a Windows-8-style tile
dashboard.  The file embeds the program's pure cores in Lean:

* the `Tile` / `AppState` data model,
* `ConfigManager.load` / `ConfigManager.save` / `ConfigManager._default_state`
  (JSON persistence with default fallback),
* the size table `SIZE_MAP` and `TileButton.tile_pixel_size`,
* the grid packer `TileGrid._pack_tiles` with its inner `first_fit` loop,
* `MainWindow._change_columns` and the settings dialog's column spin box,
* `TileGrid.move_tile` / `TileGrid._index_of`.

Modelling conventions:

* Python `int` is `Int`; grid coordinates produced by the packer are `Nat`.
* The file system is abstracted: `ConfigManager.load` takes
  `Option (Option JValue)` where `none` means the file does not exist,
  `some none` means reading or JSON-parsing raised, and `some (some j)`
  means the file parsed to the JSON value `j`.  The textual layer
  (`json.dump`/`json.load`) is modelled as the identity on JSON values.
* `ConfigManager.load` is modelled over dynamically typed Python values
  (`PValue`): `dict.get` and the dataclass constructors accept values of
  any type without validation, and the model raises exactly where Python
  raises (non-dict data, a non-iterable "tiles" value, a non-mapping
  element, an unknown or missing-required keyword).  JSON numbers (int or
  float literals) are the exact rationals they denote; `load` only passes
  them through.  The typed decoders (`decodeTile`, `loadFromJson`) are the
  restriction of the same code path to the value shapes
  `ConfigManager.save` writes, used for the round-trip claim.
* The unbounded `while True` loop of `first_fit` is modelled with an
  explicit row bound that is proved sufficient: past every occupied row
  the scan always succeeds, so the bounded search agrees with the loop
  wherever the loop terminates.
-/

namespace MetroTiles

/-- `DEFAULT_COLUMNS = 4` (metro_tiles.py). -/
def DEFAULT_COLUMNS : Int := 4

/-- `CELL_SIZE = 140`, base cell size in pixels. -/
def CELL_SIZE : Nat := 140

/-- `CELL_GAP = 12`. -/
def CELL_GAP : Nat := 12

/-- The `Tile` dataclass of metro_tiles.py: nine fields. -/
structure Tile where
  id : String
  title : String
  color : String
  icon_path : Option String
  action_type : String
  action_value : String
  size : String
  row : Int
  col : Int
deriving Repr, DecidableEq

/-- The `AppState` dataclass: theme, column count, and a tile list whose
Python default is `None` (hence the `Option`). -/
structure AppState where
  theme : String
  columns : Int
  tiles : Option (List Tile)
deriving Repr, DecidableEq

/-- JSON values of the shapes `ConfigManager.save` writes (numbers
restricted to the integers, which is all `save` emits; the dynamic model
`PValue` below covers arbitrary `json.load` output). -/
inductive JValue where
  | null : JValue
  | bool : Bool → JValue
  | num : Int → JValue
  | str : String → JValue
  | arr : List JValue → JValue
  | obj : List (String × JValue) → JValue

/-- Key lookup in a parsed JSON object (a Python `dict` has unique keys,
so first-match lookup is faithful). -/
def jLookup (fs : List (String × JValue)) (k : String) : Option JValue :=
  fs.lookup k

/-- The platforms distinguished by `sys.platform` checks. -/
inductive Platform where
  | win : Platform
  | darwin : Platform
  | linux : Platform
deriving Repr, DecidableEq

/-- The platform-dependent `action_value` of the "Notepad" default tile. -/
def notepadCommand : Platform → String
  | .win => "notepad"
  | .darwin => "open -a TextEdit"
  | .linux => "gedit"

/-- `ConfigManager._default_state`: theme "dark", `DEFAULT_COLUMNS`, and the
five built-in tiles.  `home` stands for `os.path.expanduser("~")`. -/
def default_state (plat : Platform) (home : String) : AppState :=
  { theme := "dark", columns := DEFAULT_COLUMNS, tiles := some [
      { id := "tile_browser", title := "Browser", color := "#0078D7",
        icon_path := none, action_type := "url",
        action_value := "https://www.example.com", size := "wide",
        row := 0, col := 0 },
      { id := "tile_docs", title := "Documents", color := "#107C10",
        icon_path := none, action_type := "file", action_value := home,
        size := "small", row := 0, col := 0 },
      { id := "tile_cmd", title := "Notepad", color := "#D83B01",
        icon_path := none, action_type := "command",
        action_value := notepadCommand plat, size := "small",
        row := 0, col := 0 },
      { id := "tile_clock", title := "Clock", color := "#5C2D91",
        icon_path := none, action_type := "builtin", action_value := "clock",
        size := "large", row := 0, col := 0 },
      { id := "tile_settings", title := "Settings", color := "#FFB900",
        icon_path := none, action_type := "builtin",
        action_value := "settings", size := "small", row := 0, col := 0 }] }

/-- The field names of the `Tile` dataclass: `Tile(**t)` raises `TypeError`
on any key outside this list. -/
def tileFieldNames : List String :=
  ["id", "title", "color", "icon_path", "action_type", "action_value",
   "size", "row", "col"]

/-- Decode a required field of a saved payload (`id`, `title` have no
dataclass default: a missing key raises; `save` always writes strings
there). -/
def decodeReq : Option JValue → Option String
  | some (.str s) => some s
  | _ => none

/-- Decode an optional field with dataclass default `d`, at the `str`
shape `save` writes for it. -/
def decodeStrD (d : String) : Option JValue → Option String
  | none => some d
  | some (.str s) => some s
  | some _ => none

/-- Decode an optional field with dataclass default `d`, at the `int`
shape `save` writes for it. -/
def decodeIntD (d : Int) : Option JValue → Option Int
  | none => some d
  | some (.num n) => some n
  | some _ => none

/-- Decode the `icon_path` field at its saved shape (`Optional[str]`,
default `None`). -/
def decodeOptStr : Option JValue → Option (Option String)
  | none => some none
  | some .null => some none
  | some (.str s) => some (some s)
  | some _ => none

/-- `Tile(**t)` restricted to objects of the shapes `asdict`/`save`
writes: keys among the field names, `id`/`title` present, each present
value of its field's saved shape, absent fields taking the dataclass
defaults.  The general, validation-free `Tile(**t)` is `dtileOfValue`
below. -/
def decodeTile : JValue → Option Tile
  | .obj fs =>
    if (fs.map Prod.fst).all (fun k => tileFieldNames.contains k) then do
      let i ← decodeReq (jLookup fs "id")
      let ti ← decodeReq (jLookup fs "title")
      let co ← decodeStrD "#0078D7" (jLookup fs "color")
      let ic ← decodeOptStr (jLookup fs "icon_path")
      let aty ← decodeStrD "url" (jLookup fs "action_type")
      let av ← decodeStrD "" (jLookup fs "action_value")
      let sz ← decodeStrD "small" (jLookup fs "size")
      let ro ← decodeIntD 0 (jLookup fs "row")
      let cl ← decodeIntD 0 (jLookup fs "col")
      some { id := i, title := ti, color := co, icon_path := ic,
             action_type := aty, action_value := av, size := sz,
             row := ro, col := cl }
    else none
  | _ => none

/-- `[Tile(**t) for t in ...]` over saved payloads: the whole
comprehension raises if any element does. -/
def decodeTiles : List JValue → Option (List Tile)
  | [] => some []
  | j :: js => do
    let t ← decodeTile j
    let ts ← decodeTiles js
    some (t :: ts)

/-- The `try` body of `ConfigManager.load` (`data.get("tiles", [])`, the
tile comprehension, and the `AppState` construction with
`data.get("theme", "dark")` and `data.get("columns", DEFAULT_COLUMNS)`)
restricted to the value shapes `ConfigManager.save` writes, used for the
round-trip claim; the general dynamic model is `dLoadFromJson` below. -/
def loadFromJson : JValue → Option AppState
  | .obj fs => do
    let tilesJ := (jLookup fs "tiles").getD (.arr [])
    match tilesJ with
    | .arr tlist => do
      let tiles ← decodeTiles tlist
      let th ← decodeStrD "dark" (jLookup fs "theme")
      let cols ← decodeIntD DEFAULT_COLUMNS (jLookup fs "columns")
      some { theme := th, columns := cols, tiles := some tiles }
    | _ => none
  | _ => none

/-- `ConfigManager.load` over the typed (saved-payload) restriction,
used for the round-trip claim; the general model is
`dConfigManager_load`. -/
def ConfigManager_load (plat : Platform) (home : String)
    (file : Option (Option JValue)) : AppState :=
  match file with
  | none => default_state plat home
  | some none => default_state plat home
  | some (some data) =>
    match loadFromJson data with
    | some st => st
    | none => default_state plat home

/-- `dataclasses.asdict` on a `Tile`: all nine fields, in declaration
order. -/
def tileToJson (t : Tile) : JValue :=
  .obj [("id", .str t.id), ("title", .str t.title), ("color", .str t.color),
        ("icon_path", match t.icon_path with
                      | none => .null
                      | some s => .str s),
        ("action_type", .str t.action_type),
        ("action_value", .str t.action_value),
        ("size", .str t.size), ("row", .num t.row), ("col", .num t.col)]

/-- `ConfigManager.save`: the JSON payload written to disk —
`{"theme": ..., "columns": ..., "tiles": [asdict(t) for t in tiles or []]}`. -/
def ConfigManager_save (st : AppState) : JValue :=
  .obj [("theme", .str st.theme), ("columns", .num st.columns),
        ("tiles", .arr ((st.tiles.getD []).map tileToJson))]

/-- The keys of a JSON object. -/
def jKeys : JValue → List String
  | .obj fs => fs.map Prod.fst
  | _ => []

/-- Key lookup on a JSON value (`none` off objects). -/
def jGet (j : JValue) (k : String) : Option JValue :=
  match j with
  | .obj fs => jLookup fs k
  | _ => none

/-! ## The dynamic value model of `ConfigManager.load`

Python performs no runtime type validation: `dict.get` returns whatever
value is present and `Tile(**t)` / `AppState(...)` accept field values of
any type.  `load` is therefore modelled over dynamically typed Python
values, and its exception branch arises exactly where Python raises:
non-dict parsed data (`AttributeError` on `.get`), a non-iterable "tiles"
value (`TypeError` in the comprehension), a non-mapping element
(`TypeError` in `Tile(**t)`), or an unknown / missing-required keyword.
-/

/-- A Python value as produced by `json.load`: `None`, `bool`, a number,
`str`, `list`, or `dict` with string keys.  JSON numbers (`int` or `float`
literals, e.g. `3.5`) are modelled as the exact rationals they denote;
`load` only passes them through, never computing with them. -/
inductive PValue where
  | null : PValue
  | bool : Bool → PValue
  | num : Rat → PValue
  | str : String → PValue
  | list : List PValue → PValue
  | dict : List (String × PValue) → PValue

/-- `dict.get` key lookup on a parsed dict (unique keys). -/
def pGet (fs : List (String × PValue)) (k : String) : Option PValue :=
  fs.lookup k

/-- A `Tile` dataclass instance as Python holds it: nine dynamically typed
fields. -/
structure DTile where
  id : PValue
  title : PValue
  color : PValue
  icon_path : PValue
  action_type : PValue
  action_value : PValue
  size : PValue
  row : PValue
  col : PValue

/-- An `AppState` instance as `load` returns it: dynamically typed
`theme` and `columns`, and the constructed tile list. -/
structure DAppState where
  theme : PValue
  columns : PValue
  tiles : List DTile

/-- `ConfigManager._default_state` in the dynamic model: theme "dark",
4 columns, the five built-in tiles. -/
def dDefault_state (plat : Platform) (home : String) : DAppState :=
  { theme := .str "dark", columns := .num 4, tiles := [
      { id := .str "tile_browser", title := .str "Browser",
        color := .str "#0078D7", icon_path := .null, action_type := .str "url",
        action_value := .str "https://www.example.com", size := .str "wide",
        row := .num 0, col := .num 0 },
      { id := .str "tile_docs", title := .str "Documents",
        color := .str "#107C10", icon_path := .null, action_type := .str "file",
        action_value := .str home, size := .str "small",
        row := .num 0, col := .num 0 },
      { id := .str "tile_cmd", title := .str "Notepad",
        color := .str "#D83B01", icon_path := .null,
        action_type := .str "command",
        action_value := .str (notepadCommand plat), size := .str "small",
        row := .num 0, col := .num 0 },
      { id := .str "tile_clock", title := .str "Clock",
        color := .str "#5C2D91", icon_path := .null,
        action_type := .str "builtin", action_value := .str "clock",
        size := .str "large", row := .num 0, col := .num 0 },
      { id := .str "tile_settings", title := .str "Settings",
        color := .str "#FFB900", icon_path := .null,
        action_type := .str "builtin", action_value := .str "settings",
        size := .str "small", row := .num 0, col := .num 0 }] }

/-- `Tile(**t)` on a parsed dict: raises (`none`) exactly when some key is
outside the nine field names or `id`/`title` is missing; present values of
any type are accepted unvalidated, absent fields take the dataclass
defaults. -/
def dtileOfDict (fs : List (String × PValue)) : Option DTile :=
  if (fs.map Prod.fst).all (fun k => tileFieldNames.contains k) then
    match pGet fs "id", pGet fs "title" with
    | some i, some ti =>
      some { id := i, title := ti,
             color := (pGet fs "color").getD (.str "#0078D7"),
             icon_path := (pGet fs "icon_path").getD .null,
             action_type := (pGet fs "action_type").getD (.str "url"),
             action_value := (pGet fs "action_value").getD (.str ""),
             size := (pGet fs "size").getD (.str "small"),
             row := (pGet fs "row").getD (.num 0),
             col := (pGet fs "col").getD (.num 0) }
    | _, _ => none
  else none

/-- `Tile(**t)` on an arbitrary value: a non-mapping `t` raises
`TypeError`. -/
def dtileOfValue : PValue → Option DTile
  | .dict fs => dtileOfDict fs
  | _ => none

/-- `for t in x` over a JSON-produced value: lists yield their elements,
dicts their keys, strings their characters (as 1-character strings);
`None`, booleans and numbers are not iterable and raise `TypeError`. -/
def iterElems : PValue → Option (List PValue)
  | .list xs => some xs
  | .dict fs => some (fs.map (fun kv => .str kv.1))
  | .str s => some (s.data.map (fun c => .str (String.singleton c)))
  | _ => none

/-- `[Tile(**t) for t in elems]`: the comprehension raises if any element
does. -/
def dtilesOfList : List PValue → Option (List DTile)
  | [] => some []
  | v :: vs => do
    let t ← dtileOfValue v
    let ts ← dtilesOfList vs
    some (t :: ts)

/-- `[Tile(**t) for t in x]` on the value of the "tiles" key. -/
def dtilesOf (v : PValue) : Option (List DTile) := do
  let elems ← iterElems v
  dtilesOfList elems

/-- The `try` body of `ConfigManager.load` on parsed data: `.get` raises on
non-dicts; otherwise the tile comprehension runs on
`data.get("tiles", [])` and the state is built from
`data.get("theme", "dark")` and `data.get("columns", DEFAULT_COLUMNS)`,
whatever the types of the present values.  `none` is the exception
branch. -/
def dLoadFromJson : PValue → Option DAppState
  | .dict fs => do
    let tiles ← dtilesOf ((pGet fs "tiles").getD (.list []))
    some { theme := (pGet fs "theme").getD (.str "dark"),
           columns := (pGet fs "columns").getD (.num 4),
           tiles := tiles }
  | _ => none

/-- `ConfigManager.load` over dynamic values: missing file or any
exception yields the default state, otherwise the state built from the
parsed data. -/
def dConfigManager_load (plat : Platform) (home : String)
    (file : Option (Option PValue)) : DAppState :=
  match file with
  | none => dDefault_state plat home
  | some none => dDefault_state plat home
  | some (some data) =>
    match dLoadFromJson data with
    | some st => st
    | none => dDefault_state plat home

/-! ## The grid packer `TileGrid._pack_tiles` -/

/-- `SIZE_MAP.get(size, (1, 1))`: `(rowspan, colspan)` per size string. -/
def sizeSpans (s : String) : Nat × Nat :=
  if s = "small" then (1, 1)
  else if s = "wide" then (1, 2)
  else if s = "large" then (2, 2)
  else (1, 1)

/-- `TileButton.tile_pixel_size`, as `(width, height)`:
`w = c*CELL_SIZE + (c-1)*CELL_GAP`, `h = r*CELL_SIZE + (r-1)*CELL_GAP`
for `(r, c) = SIZE_MAP.get(size, (1,1))`. -/
def tile_pixel_size (size : String) : Nat × Nat :=
  let rc := sizeSpans size
  (rc.2 * CELL_SIZE + (rc.2 - 1) * CELL_GAP,
   rc.1 * CELL_SIZE + (rc.1 - 1) * CELL_GAP)

/-- A grid cell `(row, column)`, a key of the `occupancy` dict. -/
abbrev Cell := Nat × Nat

/-- The cells of the `rspan × cspan` rectangle anchored at `(r, c)` —
the pairs `(rr, cc)` scanned by the two inner `for` loops. -/
def rectCells (r c rs cs : Nat) : List Cell :=
  (List.range rs).flatMap (fun dr => (List.range cs).map (fun dc => (r + dr, c + dc)))

/-- The `ok` check of `first_fit`: no cell of the rectangle is in the
occupancy map. -/
def cellsFree (occ : List Cell) (r c rs cs : Nat) : Bool :=
  decide (∀ p ∈ rectCells r c rs cs, p ∉ occ)

/-- The `for c in range(columns)` scan of one candidate row, starting at
column `c` with `left` columns still to visit: skip `c` when
`c + cspan > columns` (the `continue`), return the first `c` whose
rectangle is free. -/
def findColFrom (occ : List Cell) (columns rs cs r : Nat) : Nat → Nat → Option Nat
  | _, 0 => none
  | c, left + 1 =>
    if c + cs ≤ columns then
      if cellsFree occ r c rs cs then some c
      else findColFrom occ columns rs cs r (c + 1) left
    else findColFrom occ columns rs cs r (c + 1) left

/-- One iteration of the `while True` loop: scan row `r` over
`c in range(columns)`. -/
def findCol (occ : List Cell) (columns rs cs r : Nat) : Option Nat :=
  findColFrom occ columns rs cs r 0 columns

/-- The `while True: ...; r += 1` loop, bounded by `fuel` rows starting at
row `r`. -/
def firstFitAux (occ : List Cell) (columns rs cs : Nat) : Nat → Nat → Option (Nat × Nat)
  | 0, _ => none
  | fuel + 1, r =>
    match findCol occ columns rs cs r with
    | some c => some (r, c)
    | none => firstFitAux occ columns rs cs fuel (r + 1)

/-- An upper bound on occupied rows: every `(rr, cc)` in the occupancy map
has `rr < rowBound occ`. -/
def rowBound (occ : List Cell) : Nat :=
  occ.foldr (fun p b => max (p.1 + 1) b) 0

/-- `first_fit(rspan, cspan)`: the unbounded row scan, run up to the first
row past every occupied cell (a row where, whenever `cspan ≤ columns`, the
scan is proved to succeed — so the bounded search returns exactly what the
`while True` loop returns whenever the loop terminates, and `none` exactly
when it would loop forever). -/
def first_fit (occ : List Cell) (columns rs cs : Nat) : Option (Nat × Nat) :=
  firstFitAux occ columns rs cs (rowBound occ + 1) 0

/-- A placement `(row, col, rowspan, colspan)` as returned by
`_pack_tiles`. -/
structure Placement where
  row : Nat
  col : Nat
  rowspan : Nat
  colspan : Nat
deriving Repr, DecidableEq

/-- The cells covered by a placement. -/
def placeCells (p : Placement) : List Cell :=
  rectCells p.row p.col p.rowspan p.colspan

/-- `TileGrid._pack_tiles`, recursing over the tile list with the
occupancy map threaded through: each tile is placed by `first_fit`, its
`row`/`col` fields are updated (the Python mutation `t.row, t.col = r, c`),
and its rectangle is marked occupied.  `none` signals that `first_fit`
would not terminate for some tile. -/
def packAux (columns : Nat) (occ : List Cell) : List Tile → Option (List (Tile × Placement))
  | [] => some []
  | t :: ts =>
    match first_fit occ columns (sizeSpans t.size).1 (sizeSpans t.size).2 with
    | none => none
    | some rc =>
      match packAux columns
          (occ ++ placeCells ⟨rc.1, rc.2, (sizeSpans t.size).1, (sizeSpans t.size).2⟩) ts with
      | none => none
      | some rest =>
        some (({ t with row := (rc.1 : Int), col := (rc.2 : Int) },
               ⟨rc.1, rc.2, (sizeSpans t.size).1, (sizeSpans t.size).2⟩) :: rest)

/-- `TileGrid._pack_tiles(tiles, columns)`: start from an empty occupancy
map. -/
def pack_tiles (tiles : List Tile) (columns : Nat) : Option (List (Tile × Placement)) :=
  packAux columns [] tiles

/-- The cells occupied by a list of placements. -/
def occupiedBy (ps : List (Tile × Placement)) : List Cell :=
  ps.flatMap (fun tp => placeCells tp.2)

/-- `(r, c)` is the row-major first-fit position for an `rs × cs` tile:
in bounds, free, and lexicographically least among the in-bounds free
positions. -/
def isFirstFitPos (occ : List Cell) (columns rs cs r c : Nat) : Prop :=
  c < columns ∧ c + cs ≤ columns ∧ cellsFree occ r c rs cs = true ∧
    ∀ r' c', c' + cs ≤ columns → cellsFree occ r' c' rs cs = true →
      r < r' ∨ (r = r' ∧ c ≤ c')

/-- A tile with its position fields cleared, for frame conditions. -/
def eraseTilePos (t : Tile) : Tile :=
  { t with row := 0, col := 0 }

/-! ## Column clamping and tile reordering -/

/-- `MainWindow._change_columns`: `max(2, min(8, columns + delta))`. -/
def change_columns (columns delta : Int) : Int :=
  max 2 (min 8 (columns + delta))

/-- A Qt `QSpinBox` with `setRange(lo, hi)` clamps any entered or set value
into `[lo, hi]`; this models the value the settings dialog reads back. -/
def spinBoxClamp (lo hi v : Int) : Int :=
  max lo (min hi v)

/-- The `columns` value the settings dialog stores: the value of a spin box
with `setRange(2, 8)`. -/
def settingsColumns (requested : Int) : Int :=
  spinBoxClamp 2 8 requested

/-- `TileGrid._index_of`: index of the first tile whose `id` matches. -/
def index_of (tid : String) : List Tile → Option Nat
  | [] => none
  | t :: ts => if t.id = tid then some 0 else (index_of tid ts).map (· + 1)

/-- The Python parallel assignment
`tiles[i], tiles[j] = tiles[j], tiles[i]`. -/
def listSwap (l : List Tile) (i j : Nat) : List Tile :=
  match l.get? i, l.get? j with
  | some a, some b => (l.set i b).set j a
  | _, _ => l

/-- `TileGrid.move_tile`: find the tile by id, clamp the target index to
`[0, len-1]`, and swap when the target differs from the source. -/
def move_tile (tiles : List Tile) (tid : String) (delta : Int) : List Tile :=
  match index_of tid tiles with
  | none => tiles
  | some i =>
    let j := (max 0 (min ((tiles.length : Int) - 1) ((i : Int) + delta))).toNat
    if i = j then tiles else listSwap tiles i j

/-! ## Concrete data used to instantiate the theorems -/

/-- A concrete small tile. -/
def wtA : Tile :=
  { id := "a", title := "A", color := "#111111", icon_path := none,
    action_type := "url", action_value := "", size := "small", row := 0, col := 0 }

/-- A concrete wide tile. -/
def wtB : Tile :=
  { id := "b", title := "B", color := "#222222", icon_path := none,
    action_type := "url", action_value := "", size := "wide", row := 0, col := 0 }

/-- A concrete two-tile list. -/
def wTiles : List Tile := [wtA, wtB]

/-- What the packer produces on `wTiles` with two columns. -/
def wPs : List (Tile × Placement) :=
  [(wtA, ⟨0, 0, 1, 1⟩), ({ wtB with row := 1, col := 0 }, ⟨1, 0, 1, 2⟩)]

/-! ## Lemmas about the first-fit scan -/

theorem mem_rectCells {p : Cell} {r c rs cs : Nat} :
    p ∈ rectCells r c rs cs ↔ ∃ dr, dr < rs ∧ ∃ dc, dc < cs ∧ p = (r + dr, c + dc) := by
  simp only [rectCells, List.mem_flatMap, List.mem_map, List.mem_range]
  constructor
  · rintro ⟨dr, hdr, dc, hdc, rfl⟩
    exact ⟨dr, hdr, dc, hdc, rfl⟩
  · rintro ⟨dr, hdr, dc, hdc, rfl⟩
    exact ⟨dr, hdr, dc, hdc, rfl⟩

theorem cellsFree_iff {occ : List Cell} {r c rs cs : Nat} :
    cellsFree occ r c rs cs = true ↔ ∀ p ∈ rectCells r c rs cs, p ∉ occ := by
  simp [cellsFree]

theorem lt_rowBound {occ : List Cell} {p : Cell} (h : p ∈ occ) :
    p.1 < rowBound occ := by
  induction occ with
  | nil => simp at h
  | cons q qs ih =>
    rcases List.mem_cons.mp h with rfl | h
    · simp only [rowBound, List.foldr_cons]
      omega
    · have := ih h
      simp only [rowBound, List.foldr_cons] at *
      omega

theorem cellsFree_of_rowBound_le {occ : List Cell} {r c rs cs : Nat}
    (h : rowBound occ ≤ r) : cellsFree occ r c rs cs = true := by
  rw [cellsFree_iff]
  intro p hp hmem
  obtain ⟨dr, -, dc, -, rfl⟩ := mem_rectCells.mp hp
  have := lt_rowBound hmem
  simp at this
  omega

theorem findColFrom_some {occ : List Cell} {columns rs cs r : Nat} {left c res : Nat}
    (h : findColFrom occ columns rs cs r c left = some res) :
    c ≤ res ∧ res < c + left ∧ res + cs ≤ columns ∧
      cellsFree occ r res rs cs = true ∧
      ∀ c', c ≤ c' → c' < res → c' + cs ≤ columns →
        cellsFree occ r c' rs cs = false := by
  induction left generalizing c with
  | zero => simp [findColFrom] at h
  | succ left ih =>
    rw [findColFrom] at h
    by_cases h1 : c + cs ≤ columns
    · rw [if_pos h1] at h
      by_cases h2 : cellsFree occ r c rs cs = true
      · rw [if_pos h2] at h
        injection h with h
        subst h
        exact ⟨le_refl _, by omega, h1, h2,
          fun c' hc hc' _ => absurd hc' (by omega)⟩
      · rw [if_neg h2] at h
        obtain ⟨ha, hb, hc3, hd, he⟩ := ih h
        refine ⟨by omega, by omega, hc3, hd, ?_⟩
        intro c' hcc hcr hcs
        rcases Nat.eq_or_lt_of_le hcc with rfl | hlt
        · rw [Bool.not_eq_true] at h2
          exact h2
        · exact he c' (by omega) hcr hcs
    · rw [if_neg h1] at h
      obtain ⟨ha, hb, hc3, hd, he⟩ := ih h
      refine ⟨by omega, by omega, hc3, hd, ?_⟩
      intro c' hcc hcr hcs
      rcases Nat.eq_or_lt_of_le hcc with rfl | hlt
      · exact absurd hcs h1
      · exact he c' (by omega) hcr hcs

theorem findColFrom_none {occ : List Cell} {columns rs cs r : Nat} {left c : Nat}
    (h : findColFrom occ columns rs cs r c left = none) :
    ∀ c', c ≤ c' → c' < c + left → c' + cs ≤ columns →
      cellsFree occ r c' rs cs = false := by
  induction left generalizing c with
  | zero =>
    intro c' h1 h2 h3
    exact absurd h2 (by omega)
  | succ left ih =>
    rw [findColFrom] at h
    by_cases h1 : c + cs ≤ columns
    · rw [if_pos h1] at h
      by_cases h2 : cellsFree occ r c rs cs = true
      · rw [if_pos h2] at h
        exact absurd h (by simp)
      · rw [if_neg h2] at h
        intro c' hc hcr hcs
        rcases Nat.eq_or_lt_of_le hc with rfl | hlt
        · rw [Bool.not_eq_true] at h2
          exact h2
        · exact ih h c' (by omega) (by omega) hcs
    · rw [if_neg h1] at h
      intro c' hc hcr hcs
      rcases Nat.eq_or_lt_of_le hc with rfl | hlt
      · exact absurd hcs h1
      · exact ih h c' (by omega) (by omega) hcs

theorem firstFitAux_some {occ : List Cell} {columns rs cs : Nat} {fuel r0 r c : Nat}
    (h : firstFitAux occ columns rs cs fuel r0 = some (r, c)) :
    r0 ≤ r ∧ r < r0 + fuel ∧ findCol occ columns rs cs r = some c ∧
      ∀ r', r0 ≤ r' → r' < r → findCol occ columns rs cs r' = none := by
  induction fuel generalizing r0 with
  | zero => simp [firstFitAux] at h
  | succ fuel ih =>
    rw [firstFitAux] at h
    cases hf : findCol occ columns rs cs r0 with
    | some c0 =>
      rw [hf] at h
      simp only [Option.some.injEq, Prod.mk.injEq] at h
      obtain ⟨rfl, rfl⟩ := h
      exact ⟨le_refl _, by omega, hf, fun r' h1 h2 => absurd h2 (by omega)⟩
    | none =>
      rw [hf] at h
      obtain ⟨ha, hb, hc2, hd⟩ := ih h
      refine ⟨by omega, by omega, hc2, ?_⟩
      intro r' h1 h2
      rcases Nat.eq_or_lt_of_le h1 with rfl | hlt
      · exact hf
      · exact hd r' (by omega) h2

theorem firstFitAux_succeeds {occ : List Cell} {columns rs cs : Nat} {fuel r0 : Nat}
    (rG : Nat) (hG : findCol occ columns rs cs rG ≠ none) (h1 : r0 ≤ rG)
    (h2 : rG < r0 + fuel) :
    ∃ rc, firstFitAux occ columns rs cs fuel r0 = some rc := by
  induction fuel generalizing r0 with
  | zero => exact absurd h2 (by omega)
  | succ fuel ih =>
    rw [firstFitAux]
    cases hf : findCol occ columns rs cs r0 with
    | some c => exact ⟨(r0, c), rfl⟩
    | none =>
      have hne : r0 ≠ rG := fun he => hG (he ▸ hf)
      exact ih (by omega) (by omega)

theorem sizeSpans_pos (s : String) : 1 ≤ (sizeSpans s).1 ∧ 1 ≤ (sizeSpans s).2 := by
  rw [sizeSpans]
  split_ifs <;> simp

theorem sizeSpans_le_two (s : String) : (sizeSpans s).1 ≤ 2 ∧ (sizeSpans s).2 ≤ 2 := by
  rw [sizeSpans]
  split_ifs <;> simp

theorem first_fit_isFirstFitPos {occ : List Cell} {columns rs cs r c : Nat}
    (hcs : 1 ≤ cs) (h : first_fit occ columns rs cs = some (r, c)) :
    isFirstFitPos occ columns rs cs r c := by
  obtain ⟨-, -, hcol, hrows⟩ := firstFitAux_some h
  obtain ⟨-, -, hbound, hfree, hmin⟩ := findColFrom_some hcol
  refine ⟨by omega, hbound, hfree, ?_⟩
  intro r' c' hb' hf'
  rcases Nat.lt_trichotomy r r' with hlt | heq | hgt
  · exact Or.inl hlt
  · subst heq
    refine Or.inr ⟨rfl, ?_⟩
    by_contra hcc
    have := hmin c' (Nat.zero_le _) (by omega) hb'
    rw [hf'] at this
    exact absurd this (by simp)
  · have hnone := hrows r' (Nat.zero_le _) hgt
    have := findColFrom_none hnone c' (Nat.zero_le _) (by omega) hb'
    rw [hf'] at this
    exact absurd this (by simp)

theorem first_fit_succeeds (occ : List Cell) (columns rs cs : Nat)
    (hcs : 1 ≤ cs) (hle : cs ≤ columns) :
    ∃ rc, first_fit occ columns rs cs = some rc := by
  refine firstFitAux_succeeds (rowBound occ) ?_ (Nat.zero_le _) (by omega)
  intro hnone
  have := findColFrom_none hnone 0 (le_refl _) (by omega) (by omega)
  rw [cellsFree_of_rowBound_le (le_refl _)] at this
  exact absurd this (by simp)

/-! ## Lemmas about the packer -/

theorem packAux_frame {columns : Nat} {occ : List Cell} {tiles : List Tile}
    {ps : List (Tile × Placement)} (h : packAux columns occ tiles = some ps) :
    ps.map (fun tp => eraseTilePos tp.1) = tiles.map eraseTilePos ∧
      ∀ tp ∈ ps, tp.1.row = (tp.2.row : Int) ∧ tp.1.col = (tp.2.col : Int) ∧
        (tp.2.rowspan, tp.2.colspan) = sizeSpans tp.1.size := by
  induction tiles generalizing occ ps with
  | nil =>
    rw [packAux] at h
    injection h with h
    subst h
    simp
  | cons t ts ih =>
    rw [packAux] at h
    cases hf : first_fit occ columns (sizeSpans t.size).1 (sizeSpans t.size).2 with
    | none =>
      rw [hf] at h
      exact absurd h (by simp)
    | some rc =>
      rw [hf] at h
      dsimp only at h
      cases hr : packAux columns
          (occ ++ placeCells ⟨rc.1, rc.2, (sizeSpans t.size).1, (sizeSpans t.size).2⟩) ts with
      | none =>
        rw [hr] at h
        exact absurd h (by simp)
      | some rest =>
        rw [hr] at h
        dsimp only at h
        injection h with h
        subst h
        obtain ⟨h1, h2⟩ := ih hr
        refine ⟨?_, ?_⟩
        · rw [List.map_cons, List.map_cons, h1]
          rfl
        intro tp htp
        rcases List.mem_cons.mp htp with rfl | htp
        · exact ⟨rfl, rfl, rfl⟩
        · exact h2 tp htp

theorem packAux_isFirstFit {columns : Nat} {occ : List Cell} {tiles : List Tile}
    {ps : List (Tile × Placement)} (h : packAux columns occ tiles = some ps) :
    ∀ i (hi : i < ps.length),
      isFirstFitPos (occ ++ occupiedBy (ps.take i)) columns
        (ps.get ⟨i, hi⟩).2.rowspan (ps.get ⟨i, hi⟩).2.colspan
        (ps.get ⟨i, hi⟩).2.row (ps.get ⟨i, hi⟩).2.col := by
  induction tiles generalizing occ ps with
  | nil =>
    rw [packAux] at h
    injection h with h
    subst h
    intro i hi
    simp at hi
  | cons t ts ih =>
    rw [packAux] at h
    cases hf : first_fit occ columns (sizeSpans t.size).1 (sizeSpans t.size).2 with
    | none =>
      rw [hf] at h
      exact absurd h (by simp)
    | some rc =>
      rw [hf] at h
      dsimp only at h
      cases hr : packAux columns
          (occ ++ placeCells ⟨rc.1, rc.2, (sizeSpans t.size).1, (sizeSpans t.size).2⟩) ts with
      | none =>
        rw [hr] at h
        exact absurd h (by simp)
      | some rest =>
        rw [hr] at h
        dsimp only at h
        injection h with h
        subst h
        intro i hi
        match i with
        | 0 =>
          simp only [List.take_zero, occupiedBy, List.flatMap_nil, List.append_nil,
            List.get_cons_zero]
          exact first_fit_isFirstFitPos (sizeSpans_pos t.size).2 hf
        | k + 1 =>
          have hk : k < rest.length := by simpa using hi
          have := ih hr k hk
          simpa [occupiedBy, List.append_assoc] using this

theorem packAux_succeeds {columns : Nat} (occ : List Cell) (tiles : List Tile)
    (h : ∀ t ∈ tiles, (sizeSpans t.size).2 ≤ columns) :
    ∃ ps, packAux columns occ tiles = some ps := by
  induction tiles generalizing occ with
  | nil => exact ⟨[], rfl⟩
  | cons t ts ih =>
    obtain ⟨rc, hrc⟩ := first_fit_succeeds occ columns (sizeSpans t.size).1
      (sizeSpans t.size).2 (sizeSpans_pos t.size).2 (h t (by simp))
    obtain ⟨rest, hrest⟩ :=
      ih (occ ++ placeCells ⟨rc.1, rc.2, (sizeSpans t.size).1, (sizeSpans t.size).2⟩)
        (fun t' ht' => h t' (by simp [ht']))
    refine ⟨(({ t with row := (rc.1 : Int), col := (rc.2 : Int) },
        ⟨rc.1, rc.2, (sizeSpans t.size).1, (sizeSpans t.size).2⟩) :: rest), ?_⟩
    rw [packAux, hrc]
    dsimp only
    rw [hrest]

theorem packAux_free_of_occ {columns : Nat} {occ : List Cell} {tiles : List Tile}
    {ps : List (Tile × Placement)} (h : packAux columns occ tiles = some ps) :
    ∀ tp ∈ ps, ∀ p ∈ placeCells tp.2, p ∉ occ := by
  induction tiles generalizing occ ps with
  | nil =>
    rw [packAux] at h
    injection h with h
    subst h
    simp
  | cons t ts ih =>
    rw [packAux] at h
    cases hf : first_fit occ columns (sizeSpans t.size).1 (sizeSpans t.size).2 with
    | none =>
      rw [hf] at h
      exact absurd h (by simp)
    | some rc =>
      rw [hf] at h
      dsimp only at h
      cases hr : packAux columns
          (occ ++ placeCells ⟨rc.1, rc.2, (sizeSpans t.size).1, (sizeSpans t.size).2⟩) ts with
      | none =>
        rw [hr] at h
        exact absurd h (by simp)
      | some rest =>
        rw [hr] at h
        dsimp only at h
        injection h with h
        subst h
        intro tp htp p hp
        rcases List.mem_cons.mp htp with rfl | htp
        · have hfree := (first_fit_isFirstFitPos (sizeSpans_pos t.size).2 hf).2.2.1
          exact cellsFree_iff.mp hfree p hp
        · intro hmem
          exact ih hr tp htp p hp (List.mem_append_left _ hmem)

theorem packAux_pairwise_disjoint {columns : Nat} {occ : List Cell} {tiles : List Tile}
    {ps : List (Tile × Placement)} (h : packAux columns occ tiles = some ps) :
    ps.Pairwise (fun a b => ∀ p ∈ placeCells a.2, p ∉ placeCells b.2) := by
  induction tiles generalizing occ ps with
  | nil =>
    rw [packAux] at h
    injection h with h
    subst h
    simp
  | cons t ts ih =>
    rw [packAux] at h
    cases hf : first_fit occ columns (sizeSpans t.size).1 (sizeSpans t.size).2 with
    | none =>
      rw [hf] at h
      exact absurd h (by simp)
    | some rc =>
      rw [hf] at h
      dsimp only at h
      cases hr : packAux columns
          (occ ++ placeCells ⟨rc.1, rc.2, (sizeSpans t.size).1, (sizeSpans t.size).2⟩) ts with
      | none =>
        rw [hr] at h
        exact absurd h (by simp)
      | some rest =>
        rw [hr] at h
        dsimp only at h
        injection h with h
        subst h
        refine List.Pairwise.cons ?_ (ih hr)
        intro b hb p hp hpb
        exact packAux_free_of_occ hr b hb p hpb (List.mem_append_right _ hp)

theorem packAux_col_bound {columns : Nat} {occ : List Cell} {tiles : List Tile}
    {ps : List (Tile × Placement)} (h : packAux columns occ tiles = some ps) :
    ∀ tp ∈ ps, tp.2.col + tp.2.colspan ≤ columns := by
  intro tp htp
  obtain ⟨i, rfl⟩ := List.mem_iff_get.mp htp
  exact (packAux_isFirstFit h i.1 i.2).2.1

/-! ## Lemmas about the configuration manager -/

theorem decodeTile_tileToJson (t : Tile) : decodeTile (tileToJson t) = some t := by
  obtain ⟨i, ti, co, ic, aty, av, sz, ro, cl⟩ := t
  cases ic <;> rfl

theorem decodeTiles_map (ts : List Tile) : decodeTiles (ts.map tileToJson) = some ts := by
  induction ts with
  | nil => rfl
  | cons t ts ih => simp [decodeTiles, decodeTile_tileToJson, ih]

theorem load_save_roundtrip (plat : Platform) (home : String) (st : AppState)
    (ts : List Tile) (h : st.tiles = some ts) :
    ConfigManager_load plat home (some (some (ConfigManager_save st))) = st := by
  obtain ⟨th, cols, tiles⟩ := st
  simp only at h
  subst h
  simp [ConfigManager_load, ConfigManager_save, loadFromJson, jLookup, List.lookup,
    decodeTiles_map, decodeStrD, decodeIntD]

theorem dLoadFromJson_dict_some {fs : List (String × PValue)} {st : DAppState}
    (h : dLoadFromJson (.dict fs) = some st) :
    ∃ tiles, dtilesOf ((pGet fs "tiles").getD (.list [])) = some tiles ∧
      st = { theme := (pGet fs "theme").getD (.str "dark"),
             columns := (pGet fs "columns").getD (.num 4),
             tiles := tiles } := by
  simp only [dLoadFromJson] at h
  cases hdt : dtilesOf ((pGet fs "tiles").getD (.list [])) with
  | none => rw [hdt] at h; simp at h
  | some tiles =>
    rw [hdt] at h
    simp at h
    exact ⟨tiles, rfl, h.symm⟩

/-! ## Lemmas about tile reordering -/

theorem index_of_lt_length {tid : String} {l : List Tile} {i : Nat}
    (h : index_of tid l = some i) : i < l.length := by
  induction l generalizing i with
  | nil => simp [index_of] at h
  | cons t ts ih =>
    rw [index_of] at h
    by_cases ht : t.id = tid
    · rw [if_pos ht] at h
      injection h with h
      subst h
      simp
    · rw [if_neg ht] at h
      cases hidx : index_of tid ts with
      | none => rw [hidx] at h; simp at h
      | some k =>
        rw [hidx] at h
        simp at h
        have := ih hidx
        simp
        omega

theorem cons_set_perm {α : Type u} (x : α) (l : List α) (k : Nat) (b : α)
    (h : l.get? k = some b) : List.Perm (b :: l.set k x) (x :: l) := by
  induction l generalizing k with
  | nil => simp at h
  | cons y ys ih =>
    cases k with
    | zero =>
      injection h with h
      subst h
      exact List.Perm.swap _ _ _
    | succ k =>
      have ihh := ih k h
      have h1 : List.Perm (b :: y :: ys.set k x) (y :: b :: ys.set k x) :=
        List.Perm.swap _ _ _
      have h2 : List.Perm (y :: b :: ys.set k x) (y :: x :: ys) :=
        List.Perm.cons y ihh
      have h3 : List.Perm (y :: x :: ys) (x :: y :: ys) := List.Perm.swap _ _ _
      exact (h1.trans h2).trans h3

theorem set_set_perm {α : Type u} (l : List α) (i j : Nat) (a b : α) (hne : i ≠ j)
    (hi : l.get? i = some a) (hj : l.get? j = some b) :
    List.Perm ((l.set i b).set j a) l := by
  induction l generalizing i j with
  | nil => simp at hi
  | cons y ys ih =>
    cases i with
    | zero =>
      cases j with
      | zero => exact absurd rfl hne
      | succ k =>
        injection hi with hi
        subst hi
        exact cons_set_perm y ys k b hj
    | succ m =>
      cases j with
      | zero =>
        injection hj with hj
        subst hj
        exact cons_set_perm y ys m a hi
      | succ k =>
        have := ih m k (by omega) hi hj
        exact List.Perm.cons y this

theorem listSwap_perm {l : List Tile} {i j : Nat} (hne : i ≠ j) :
    List.Perm (listSwap l i j) l := by
  rw [listSwap]
  cases hi : l.get? i with
  | none => exact List.Perm.refl l
  | some a =>
    cases hj : l.get? j with
    | none => exact List.Perm.refl l
    | some b => exact set_set_perm l i j a b hne hi hj

/-! ## The claims -/

/-- C1: `TileGrid._pack_tiles` processes the tiles in list order and assigns
each tile the row-major first-fit position — the smallest row, and within it
the smallest column `c` with `c + colspan ≤ columns`, whose
`rowspan × colspan` rectangle avoids every cell occupied by the previously
placed tiles (`occupiedBy (ps.take i)`); those cells are occupied for the
tiles that follow. -/
theorem pack_tiles_assigns_first_fit (tiles : List Tile) (columns : Nat)
    (ps : List (Tile × Placement)) (h : pack_tiles tiles columns = some ps)
    (i : Nat) (hi : i < ps.length) :
    ((ps.get ⟨i, hi⟩).2.rowspan, (ps.get ⟨i, hi⟩).2.colspan) =
        sizeSpans (ps.get ⟨i, hi⟩).1.size ∧
      isFirstFitPos (occupiedBy (ps.take i)) columns
        (ps.get ⟨i, hi⟩).2.rowspan (ps.get ⟨i, hi⟩).2.colspan
        (ps.get ⟨i, hi⟩).2.row (ps.get ⟨i, hi⟩).2.col := by
  constructor
  · exact ((packAux_frame h).2 _ (ps.get_mem i hi)).2.2
  · have := packAux_isFirstFit h i hi
    simpa using this

/-- Witness: on `wTiles` with two columns the second (wide) tile is placed
at the first-fit position `(1, 0)`. -/
theorem pack_tiles_assigns_first_fit_witness :
    isFirstFitPos (occupiedBy (wPs.take 1)) 2 1 2 1 0 :=
  (pack_tiles_assigns_first_fit wTiles 2 wPs rfl 1 (by decide)).2

/-- C2: `ConfigManager.load` never propagates an exception: a missing
file, a read/parse failure, or any exception while building the state
(non-dict data, a non-iterable tiles value, a non-mapping element, a bad
tile keyword) yields the default state (theme "dark", 4 columns, the five
built-in tiles); otherwise the state built from the parsed data is
returned — theme and columns are the present values of any type, with
"dark", `DEFAULT_COLUMNS` and the empty tile list substituted for missing
"theme", "columns" and "tiles" keys. -/
theorem config_load_defaults (plat : Platform) (home : String) :
    dConfigManager_load plat home none = dDefault_state plat home ∧
    dConfigManager_load plat home (some none) = dDefault_state plat home ∧
    (∀ v, dLoadFromJson v = none →
      dConfigManager_load plat home (some (some v)) = dDefault_state plat home) ∧
    (∀ v st, dLoadFromJson v = some st →
      dConfigManager_load plat home (some (some v)) = st) ∧
    (∀ fs st, dLoadFromJson (.dict fs) = some st →
      st.theme = (pGet fs "theme").getD (.str "dark") ∧
      st.columns = (pGet fs "columns").getD (.num 4) ∧
      (pGet fs "tiles" = none → st.tiles = [])) ∧
    (dDefault_state plat home).theme = .str "dark" ∧
    (dDefault_state plat home).columns = .num 4 ∧
    (dDefault_state plat home).tiles.length = 5 := by
  refine ⟨rfl, rfl, ?_, ?_, ?_, rfl, rfl, rfl⟩
  · intro v hv
    simp [dConfigManager_load, hv]
  · intro v st hv
    simp [dConfigManager_load, hv]
  · intro fs st hsome
    obtain ⟨tiles, hdt, rfl⟩ := dLoadFromJson_dict_some hsome
    refine ⟨rfl, rfl, ?_⟩
    intro hnone
    rw [hnone] at hdt
    injection hdt with hdt
    exact hdt.symm

/-- Witness: a file content `{"theme": 5}` — a present but non-string
theme — loads without raising as the state with theme `5`, columns `4`
and no tiles, not as the default state. -/
theorem config_load_defaults_witness :
    dConfigManager_load .linux "/home/u"
        (some (some (.dict [("theme", .num 5)]))) =
      { theme := .num 5, columns := .num 4, tiles := [] } :=
  (config_load_defaults .linux "/home/u").2.2.2.1
    (.dict [("theme", .num 5)])
    { theme := .num 5, columns := .num 4, tiles := [] } rfl

/-- C3: when every tile's column span fits in the column count, the packer
succeeds and returns valid positions: the rectangles of distinct placed
tiles are pairwise disjoint and every placement satisfies
`col + colspan ≤ columns` (columns are naturals, so `0 ≤ col` holds by
type). -/
theorem pack_tiles_placements_valid (tiles : List Tile) (columns : Nat)
    (hpre : ∀ t ∈ tiles, (sizeSpans t.size).2 ≤ columns) :
    ∃ ps, pack_tiles tiles columns = some ps ∧
      ps.Pairwise (fun a b => ∀ p ∈ placeCells a.2, p ∉ placeCells b.2) ∧
      ∀ tp ∈ ps, tp.2.col + tp.2.colspan ≤ columns := by
  obtain ⟨ps, hps⟩ := packAux_succeeds [] tiles hpre
  exact ⟨ps, hps, packAux_pairwise_disjoint hps, packAux_col_bound hps⟩

/-- Witness: the two-tile list in two columns. -/
theorem pack_tiles_placements_valid_witness :
    ∃ ps, pack_tiles wTiles 2 = some ps ∧
      ps.Pairwise (fun a b => ∀ p ∈ placeCells a.2, p ∉ placeCells b.2) ∧
      ∀ tp ∈ ps, tp.2.col + tp.2.colspan ≤ 2 :=
  pack_tiles_placements_valid wTiles 2 (by decide)

/-- C4: saving a state whose tile list is not `None` and loading it back
yields the original state (same theme, same columns, tiles equal
field-for-field). -/
theorem save_load_round_trip (plat : Platform) (home : String) (st : AppState)
    (ts : List Tile) (h : st.tiles = some ts) :
    ConfigManager_load plat home (some (some (ConfigManager_save st))) = st :=
  load_save_roundtrip plat home st ts h

/-- Witness: a one-tile state round-trips. -/
theorem save_load_round_trip_witness :
    ConfigManager_load .win "/home/u"
        (some (some (ConfigManager_save
          { theme := "light", columns := 6, tiles := some [wtA] }))) =
      { theme := "light", columns := 6, tiles := some [wtA] } :=
  save_load_round_trip .win "/home/u" _ [wtA] rfl

/-- C5: the sizes map to exactly the listed spans — "small" is 1×1, "wide"
1 row × 2 columns, "large" 2×2, anything else 1×1 — both in the packer's
placements and in the pixel dimensions of the rendered button
(width, height). -/
theorem size_map_spans :
    sizeSpans "small" = (1, 1) ∧ sizeSpans "wide" = (1, 2) ∧
    sizeSpans "large" = (2, 2) ∧
    (∀ s, s ≠ "small" → s ≠ "wide" → s ≠ "large" → sizeSpans s = (1, 1)) ∧
    tile_pixel_size "small" = (140, 140) ∧
    tile_pixel_size "wide" = (292, 140) ∧
    tile_pixel_size "large" = (292, 292) ∧
    (∀ s, s ≠ "small" → s ≠ "wide" → s ≠ "large" →
      tile_pixel_size s = (140, 140)) ∧
    (∀ tiles columns ps, pack_tiles tiles columns = some ps →
      ∀ tp ∈ ps, (tp.2.rowspan, tp.2.colspan) = sizeSpans tp.1.size) := by
  have hdef : ∀ s, s ≠ "small" → s ≠ "wide" → s ≠ "large" → sizeSpans s = (1, 1) := by
    intro s h1 h2 h3
    rw [sizeSpans, if_neg h1, if_neg h2, if_neg h3]
  refine ⟨rfl, rfl, rfl, hdef, rfl, rfl, rfl, ?_, ?_⟩
  · intro s h1 h2 h3
    unfold tile_pixel_size
    rw [hdef s h1 h2 h3]
    rfl
  · intro tiles columns ps h tp htp
    exact ((packAux_frame h).2 tp htp).2.2

/-- Witness: an unknown size string falls back to 1×1 and 140×140 pixels,
and the first placement on `wTiles` carries the spans of its tile's size. -/
theorem size_map_spans_witness :
    sizeSpans "medium" = (1, 1) ∧ tile_pixel_size "medium" = (140, 140) ∧
    ((⟨0, 0, 1, 1⟩ : Placement).rowspan, (⟨0, 0, 1, 1⟩ : Placement).colspan) =
      sizeSpans wtA.size :=
  ⟨size_map_spans.2.2.2.1 "medium" (by decide) (by decide) (by decide),
   size_map_spans.2.2.2.2.2.2.2.1 "medium" (by decide) (by decide) (by decide),
   size_map_spans.2.2.2.2.2.2.2.2 wTiles 2 wPs rfl (wtA, ⟨0, 0, 1, 1⟩) (by decide)⟩

/-- C6: `ConfigManager.save` writes a JSON object with exactly the keys
"theme", "columns" and "tiles"; "theme" and "columns" are the state's
values unchanged, "tiles" is the in-order list of each tile's complete
dataclass field dictionary, and a `None` tile list is written as `[]`. -/
theorem save_payload_shape (st : AppState) :
    jKeys (ConfigManager_save st) = ["theme", "columns", "tiles"] ∧
    jGet (ConfigManager_save st) "theme" = some (.str st.theme) ∧
    jGet (ConfigManager_save st) "columns" = some (.num st.columns) ∧
    jGet (ConfigManager_save st) "tiles" =
      some (.arr ((st.tiles.getD []).map tileToJson)) ∧
    (∀ t : Tile, jKeys (tileToJson t) = tileFieldNames) ∧
    (st.tiles = none → jGet (ConfigManager_save st) "tiles" = some (.arr [])) := by
  refine ⟨rfl, rfl, rfl, rfl, fun t => rfl, ?_⟩
  intro h
  simp only [ConfigManager_save, h]
  rfl

/-- Witness: a state with `tiles = None` saves an empty tiles array. -/
theorem save_payload_shape_witness :
    jGet (ConfigManager_save { theme := "dark", columns := 4, tiles := none })
      "tiles" = some (.arr []) :=
  (save_payload_shape { theme := "dark", columns := 4, tiles := none }).2.2.2.2.2 rfl

/-- C7: the packer writes each placement's row and column back into the
tile's `row`/`col` fields, leaves every other field unchanged, and returns
the tiles paired with their placements in input order. -/
theorem pack_tiles_frame (tiles : List Tile) (columns : Nat)
    (ps : List (Tile × Placement)) (h : pack_tiles tiles columns = some ps) :
    ps.map (fun tp => eraseTilePos tp.1) = tiles.map eraseTilePos ∧
      ∀ tp ∈ ps, tp.1.row = (tp.2.row : Int) ∧ tp.1.col = (tp.2.col : Int) := by
  obtain ⟨h1, h2⟩ := packAux_frame h
  exact ⟨h1, fun tp htp => ⟨(h2 tp htp).1, (h2 tp htp).2.1⟩⟩

/-- Witness: on `wTiles` the returned tiles differ from the input only in
their position fields, in order. -/
theorem pack_tiles_frame_witness :
    wPs.map (fun tp => eraseTilePos tp.1) = wTiles.map eraseTilePos :=
  (pack_tiles_frame wTiles 2 wPs rfl).1

/-- C8: the packer terminates (the bounded model of the unbounded
`first_fit` loop succeeds) for every finite tile list whose column spans
fit in the column count — in particular whenever `columns ≥ 2`, since all
spans are at most 2 (`sizeSpans_le_two`). -/
theorem pack_tiles_terminates (tiles : List Tile) (columns : Nat)
    (hpre : ∀ t ∈ tiles, (sizeSpans t.size).2 ≤ columns) :
    (pack_tiles tiles columns).isSome = true := by
  obtain ⟨ps, hps⟩ := packAux_succeeds [] tiles hpre
  simp [pack_tiles, hps]

/-- Witness: the two-tile list packs in two columns. -/
theorem pack_tiles_terminates_witness : (pack_tiles wTiles 2).isSome = true :=
  pack_tiles_terminates wTiles 2 (by decide)

/-- C9: after `MainWindow._change_columns` the column count always lies in
`[2, 8]`, whatever the starting value and delta; the settings dialog's spin
box, with range `(2, 8)`, likewise only yields values in `[2, 8]`. -/
theorem columns_clamped (columns delta requested : Int) :
    2 ≤ change_columns columns delta ∧ change_columns columns delta ≤ 8 ∧
    2 ≤ settingsColumns requested ∧ settingsColumns requested ≤ 8 := by
  unfold change_columns settingsColumns spinBoxClamp
  omega

/-- C10: `TileGrid.move_tile` reorders without loss: the result is a
permutation of the input (same length, same elements), obtained by swapping
the found index with the clamped target index; when the clamped target
equals the tile's own index, or the id is absent, the list is unchanged. -/
theorem move_tile_reorders (tiles : List Tile) (tid : String) (delta : Int) :
    List.Perm (move_tile tiles tid delta) tiles ∧
    (move_tile tiles tid delta).length = tiles.length ∧
    (index_of tid tiles = none → move_tile tiles tid delta = tiles) ∧
    (∀ i, index_of tid tiles = some i →
      move_tile tiles tid delta =
        if i = (max 0 (min ((tiles.length : Int) - 1) ((i : Int) + delta))).toNat
        then tiles
        else listSwap tiles i
          (max 0 (min ((tiles.length : Int) - 1) ((i : Int) + delta))).toNat) := by
  have hperm : List.Perm (move_tile tiles tid delta) tiles := by
    rw [move_tile]
    cases hidx : index_of tid tiles with
    | none => exact List.Perm.refl tiles
    | some i =>
      dsimp only
      by_cases hij :
          i = (max 0 (min ((tiles.length : Int) - 1) ((i : Int) + delta))).toNat
      · rw [if_pos hij]
      · rw [if_neg hij]
        exact listSwap_perm hij
  refine ⟨hperm, hperm.length_eq, ?_, ?_⟩
  · intro h
    rw [move_tile, h]
  · intro i h
    rw [move_tile, h]

/-- Witness: moving the first tile of `wTiles` forward swaps indices 0
and 1. -/
theorem move_tile_reorders_witness :
    move_tile wTiles "a" 1 = listSwap wTiles 0 1 :=
  (move_tile_reorders wTiles "a" 1).2.2.2 0 rfl

end MetroTiles
